import Mathlib

/-
Verification of the smart_agent repository's specified behaviour:
a shallow embedding of `src/utils/llm.py`, `src/utils/document_processor.py`
and `src/utils/db.py`, with theorems settling the spec's claims about them.
-/

namespace SmartAgent

/-- Python-level exceptions that the embedded code can raise.
`typeError` models `TypeError` (e.g. comparing `None` with an `int`);
`unboundLocal` models `UnboundLocalError` (reading a local variable that
was never assigned); `exc` carries the message of any other exception. -/
inductive PyErr where
  | typeError : PyErr
  | unboundLocal : PyErr
  | exc : String → PyErr
  deriving DecidableEq, Repr

/-- The characters Python `str.isspace()` holds true for — ASCII
whitespace and separators, NEL, NBSP and the Unicode space characters —
which are exactly what a no-argument `str.strip()` removes. -/
def pyIsSpace (c : Char) : Bool :=
  c = ' ' || ('\x09' ≤ c && c ≤ '\x0d') || ('\x1c' ≤ c && c ≤ '\x1f')
  || c = '\x85' || c = '\xa0' || c = '\u1680'
  || ('\u2000' ≤ c && c ≤ '\u200a') || c = '\u2028' || c = '\u2029'
  || c = '\u202f' || c = '\u205f' || c = '\u3000'

/-- Python `str.strip()` with no argument: drop leading and trailing
whitespace characters. -/
def pyStrip (s : String) : String :=
  String.mk (((s.data.dropWhile pyIsSpace).reverse.dropWhile pyIsSpace).reverse)

namespace GroqLLMClient

/- ----- src/utils/llm.py ----- -/

/-- Configuration set in `GroqLLMClient.__init__` (lines 25-26):
`self.max_retries = 3`, `self.retry_delay = 1`. -/
structure Client where
  max_retries : Nat
  retry_delay : Nat
  deriving DecidableEq, Repr

/-- The client as `__init__` builds it: `max_retries = 3`, `retry_delay = 1`. -/
def defaultClient : Client := ⟨3, 1⟩

/-- Line 122/128: the rate-limit exhaustion message. -/
def highDemandMsg : String :=
  "I apologize, but I'm currently experiencing high demand. Please try again in a few moments."

/-- Line 136: the 401 message. -/
def authIssueMsg : String :=
  "I apologize, but there's an authentication issue. Please check your API configuration."

/-- Line 140: the 403 message. -/
def permissionMsg : String :=
  "I apologize, but I don't have permission to access this service."

/-- Line 148: the >= 500 message. -/
def serverErrorMsg : String :=
  "I apologize, but the service is currently experiencing technical difficulties. Please try again later."

/-- Lines 55, 126, 152: `f"I apologize, but I encountered an error: {str(e)}"`. -/
def apologyMsg (desc : String) : String :=
  "I apologize, but I encountered an error: " ++ desc

/-- Line 93: the empty-content message of `_validate_response`. -/
def emptyResponseMsg : String :=
  "I apologize, but I received an empty response. Please try again."

/-- Line 96: the invalid-format message of `_validate_response`. -/
def invalidFormatMsg : String :=
  "I apologize, but I received an invalid response format."

/-- A provider response is modelled by the content of its choices:
`response.choices[k].message.content` may be a string or `None`. -/
abbrev Choices := List (Option String)

/-- `GroqLLMClient._validate_response` (lines 84-100): an empty `choices`
list fails the `hasattr ... and response.choices` test (invalid format);
a first choice whose content is `None` or `""` is falsy (empty response);
otherwise the content is returned stripped. -/
def _validate_response (choices : Choices) : String :=
  match choices with
  | [] => invalidFormatMsg
  | none :: _ => emptyResponseMsg
  | some content :: _ => if content = "" then emptyResponseMsg else pyStrip content

/-- `GroqLLMClient._handle_api_error` (lines 130-152).
`error_code = getattr(error, 'status_code', None)` is an `Option Int`.
The `elif error_code >= 500` comparison is Python `None >= 500` when the
error carries no status code, which raises `TypeError`. -/
def _handle_api_error (status_code : Option Int) (desc : String) : Except PyErr String :=
  if status_code = some 401 then .ok authIssueMsg
  else if status_code = some 403 then .ok permissionMsg
  else if status_code = some 429 then .ok highDemandMsg
  else
    match status_code with
    | none => .error .typeError
    | some code => if 500 ≤ code then .ok serverErrorMsg else .ok (apologyMsg desc)

/-- The outcome of one `self.client.chat.completions.create(...)` call:
a response with its choices, a `RateLimitError`, an `APIError` (with its
optional `status_code` and its `str(e)` description), or any other exception. -/
inductive ApiOutcome where
  | success : Choices → ApiOutcome
  | rateLimit : ApiOutcome
  | apiError : Option Int → String → ApiOutcome
  | otherError : String → ApiOutcome

/-- What a run of `_handle_rate_limit` did: the string it returned, the
`time.sleep` durations in order, and how many `create` calls it issued. -/
structure RLResult where
  result : String
  delays : List Nat
  calls : Nat
  deriving DecidableEq, Repr

/-- The `for attempt in range(self.max_retries)` loop of
`GroqLLMClient._handle_rate_limit` (lines 104-128). `p` gives the outcome
of each successive `create` call of the enclosing client invocation and
`start + attempt` is the index of the call made at this iteration; `fuel`
counts the iterations the `range` has left, so the loop guard
`attempt < max_retries` is `fuel > 0`. Falling off the loop returns the
high-demand message (line 128). Each iteration sleeps
`retry_delay * 2 ** attempt` (lines 106-108) and re-calls the API; a
`RateLimitError` on the last attempt returns the high-demand message
(lines 120-122), any other exception returns the apology with its
description (lines 124-126). -/
def rlLoop (c : Client) (p : Nat → ApiOutcome) (start : Nat) : Nat → Nat → RLResult
  | _, 0 => ⟨highDemandMsg, [], 0⟩
  | attempt, fuel + 1 =>
    let wait := c.retry_delay * 2 ^ attempt
    match p (start + attempt) with
    | .success choices => ⟨_validate_response choices, [wait], 1⟩
    | .rateLimit =>
      if attempt = c.max_retries - 1 then ⟨highDemandMsg, [wait], 1⟩
      else
        let rest := rlLoop c p start (attempt + 1) fuel
        ⟨rest.result, wait :: rest.delays, rest.calls + 1⟩
    | .apiError _ desc => ⟨apologyMsg desc, [wait], 1⟩
    | .otherError desc => ⟨apologyMsg desc, [wait], 1⟩

/-- `GroqLLMClient._handle_rate_limit` (lines 102-128): run the retry loop
from `attempt = 0` with the full `range(self.max_retries)` ahead of it. -/
def _handle_rate_limit (c : Client) (p : Nat → ApiOutcome) (start : Nat) : RLResult :=
  rlLoop c p start 0 c.max_retries

/-- What one `chat_completion` call did: its result (a string, or a raised
Python exception), the sleeps performed, and the number of `create` calls. -/
structure ChatResult where
  result : Except PyErr String
  delays : List Nat
  create_calls : Nat
  deriving Repr

/-- `GroqLLMClient.chat_completion` (lines 32-55). `p k` is the outcome of
the k-th `create` call of this invocation (call 0 is line 35; the retries
of `_handle_rate_limit` continue the numbering from 1).
`RateLimitError` → `_handle_rate_limit` (line 47); `APIError` →
`_handle_api_error` (line 51), whose `TypeError` — raised inside an
`except` clause — propagates uncaught; any other exception → the apology
string (line 55). -/
def chat_completion (c : Client) (p : Nat → ApiOutcome) : ChatResult :=
  match p 0 with
  | .success choices => ⟨.ok (_validate_response choices), [], 1⟩
  | .rateLimit =>
    let rl := _handle_rate_limit c p 1
    ⟨.ok rl.result, rl.delays, 1 + rl.calls⟩
  | .apiError code desc => ⟨_handle_api_error code desc, [], 1⟩
  | .otherError desc => ⟨.ok (apologyMsg desc), [], 1⟩

/-- One event while iterating the streaming response (lines 68-82): a
chunk whose `choices[0].delta.content` is the given optional string, or an
exception raised by the provider stream at that point. -/
inductive StreamEvent where
  | chunk : Option String → StreamEvent
  | rateLimitExc : StreamEvent
  | apiExc : Option Int → String → StreamEvent
  | otherExc : String → StreamEvent
  deriving DecidableEq, Repr

/-- What a full drain of the streaming generator produced: the yielded
fragments in order, and whether the generator finished normally or the
drain raised a Python exception. -/
structure StreamResult where
  fragments : List String
  ending : Except PyErr Unit
  deriving Repr

/-- `GroqLLMClient.chat_completion_stream` (lines 57-82). Chunks with
truthy content are yielded (line 69-70: `None` and `""` are skipped);
the stream ends when the upstream events end. A `RateLimitError` yields
the result of `_handle_rate_limit` — whose blocking re-calls draw on `p`
from index 0 — and the generator returns (lines 72-74); an `APIError`
yields the classification of `_handle_api_error`, which for an error
without a status code raises instead (lines 76-78); any other exception
yields the apology string (lines 80-82). In every exception case the rest
of the upstream events is never consumed. -/
def chat_completion_stream (c : Client) (p : Nat → ApiOutcome) :
    List StreamEvent → StreamResult
  | [] => ⟨[], .ok ()⟩
  | .chunk co :: rest =>
    let r := chat_completion_stream c p rest
    match co with
    | some s => if s = "" then r else ⟨s :: r.fragments, r.ending⟩
    | none => r
  | .rateLimitExc :: _ => ⟨[(_handle_rate_limit c p 0).result], .ok ()⟩
  | .apiExc code desc :: _ =>
    match _handle_api_error code desc with
    | .ok s => ⟨[s], .ok ()⟩
    | .error e => ⟨[], .error e⟩
  | .otherExc desc :: _ => ⟨[apologyMsg desc], .ok ()⟩

/-- An upstream sequence made only of chunks (no exception is raised
while iterating). -/
def chunkOnly (es : List StreamEvent) : Prop :=
  ∀ e ∈ es, ∃ co, e = StreamEvent.chunk co

/-- The fragments the generator yields from a chunk sequence: one per
chunk with truthy (non-`None`, non-empty) incremental content. -/
def yieldsOf (es : List StreamEvent) : List String :=
  es.filterMap fun e =>
    match e with
    | .chunk (some s) => if s = "" then none else some s
    | _ => none

/-- The incremental content each event carries (`None` or an exception
carries none, i.e. the empty string). -/
def contentOf (es : List StreamEvent) : List String :=
  es.map fun e =>
    match e with
    | .chunk (some s) => s
    | _ => ""

/-- Concatenation of a list of strings in order. -/
def concatAll : List String → String
  | [] => ""
  | s :: rest => s ++ concatAll rest

end GroqLLMClient

namespace DocumentProcessor

/- ----- src/utils/document_processor.py ----- -/

/-- An uploaded file as the processor sees it. `size`, `name` and the raw
byte `content` are direct attributes; `plumberPages` and `pypdfPages` are
oracles for what the two PDF libraries would produce on this file's bytes:
either the `str(e)` of a raised exception or the `page.extract_text()`
results (`None` or a string per page). `pypdfPages` depends on the stream
position `PyPDF2.PdfReader` starts reading at; `pos` is the current
position of the underlying stream. -/
structure UploadedFile where
  size : Nat
  name : Option String
  content : List UInt8
  plumberPages : Except String (List (Option String))
  pypdfPages : Nat → Except String (List (Option String))
  pos : Nat

/-- `uploaded_file.seek(k)`: set the stream position. -/
def UploadedFile.seek (f : UploadedFile) (k : Nat) : UploadedFile := { f with pos := k }

/-- Line 25: `self.max_file_size = 50 * 1024 * 1024`. -/
def max_file_size : Nat := 50 * 1024 * 1024

/-- Line 180: the denylist of executable-like extensions. -/
def suspicious_extensions : List String :=
  [".exe", ".bat", ".cmd", ".com", ".scr", ".vbs", ".js"]

/-- Line 19: `supported_formats['pdf']`. -/
def pdfFormats : List String := [".pdf"]

/-- Line 20: `supported_formats['image']`. -/
def imageFormats : List String := [".png", ".jpg", ".jpeg", ".gif", ".bmp", ".tiff"]

/-- Line 21: `supported_formats['text']`. -/
def textFormats : List String := [".txt", ".csv", ".md"]

/-- Line 22: `supported_formats['spreadsheet']`. -/
def spreadsheetFormats : List String := [".xlsx", ".xls", ".ods"]

/-- The basename of a path: the characters after the last slash. -/
def basenameChars (cs : List Char) : List Char :=
  (cs.reverse.takeWhile (fun c => c ≠ '/')).reverse

/-- The extension `os.path.splitext(filename)[1]`: the basename's suffix
from its last dot, provided some character strictly before that dot in the
basename is not itself a dot (CPython's splitext rule); otherwise empty. -/
def splitextExt (cs : List Char) : List Char :=
  let rb := (basenameChars cs).reverse
  let afterDot := rb.takeWhile (fun c => c ≠ '.')
  if afterDot.length = rb.length then []
  else if (rb.drop (afterDot.length + 1)).any (fun c => c ≠ '.') then
    (rb.take (afterDot.length + 1)).reverse
  else []

/-- Python `str.lower()` as it acts on the ASCII file extensions this
module lowercases. -/
def pyLower (s : String) : String := String.mk (s.data.map Char.toLower)

/-- `DocumentProcessor._get_file_extension` (lines 192-197):
`os.path.splitext(filename)[1].lower()`. -/
def _get_file_extension (filename : String) : String :=
  pyLower (String.mk (splitextExt filename.data))

/-- Python truthiness of `uploaded_file.name`: `None` and `""` are falsy. -/
def nameFalsy : Option String → Bool
  | none => true
  | some s => s == ""

/-- The name as a string (only read after the falsiness check passes). -/
def nameString : Option String → String
  | none => ""
  | some s => s

/-- `DocumentProcessor._validate_file` (lines 166-190): reject oversize
files, falsy or over-long names, and denylisted extensions, in that order
(line 182 lowercases the already-lowercase extension again). -/
def _validate_file (f : UploadedFile) : Bool :=
  if f.size > max_file_size then false
  else if nameFalsy f.name || (nameString f.name).length > 255 then false
  else if suspicious_extensions.contains
      (pyLower (_get_file_extension (nameString f.name))) then
    false
  else true

/-- The page-collection loop shared by both PDF branches (lines 65-68 and
83-86): keep each page whose `extract_text()` result is truthy, stripped. -/
def stripTruthyPages (pages : List (Option String)) : List String :=
  pages.filterMap fun p =>
    match p with
    | some t => if t = "" then none else some (pyStrip t)
    | none => none

/-- Line 93: the message when neither PDF method found page text. -/
def noTextMsg : String := "No text content could be extracted from this PDF file."

/-- Line 97: `f"Error extracting text from PDF: {str(e)}"`. -/
def pdfErrorMsg (desc : String) : String := "Error extracting text from PDF: " ++ desc

/-- `DocumentProcessor.extract_text_from_pdf` (lines 58-101): pdfplumber
first; if it raises or collects no page text, `uploaded_file.seek(0)` and
PyPDF2 reads from the start; if that also collects nothing the fixed
no-text message is returned, and if it raises, the PDF error message. -/
def extract_text_from_pdf (f : UploadedFile) : String :=
  let primary :=
    match f.plumberPages with
    | .ok pages =>
      let text_content := stripTruthyPages pages
      if text_content.isEmpty then none else some (String.intercalate "\n\n" text_content)
    | .error _ => none
  match primary with
  | some text => text
  | none =>
    match ((f.seek 0).pypdfPages (f.seek 0).pos) with
    | .ok pages =>
      let text_content := stripTruthyPages pages
      if text_content.isEmpty then noTextMsg else String.intercalate "\n\n" text_content
    | .error desc => pdfErrorMsg desc

/-- Line 109: the fixed OCR placeholder of `extract_text_from_image`. -/
def imageMsg : String :=
  "Image text extraction (OCR) is not yet implemented. Please upload a PDF or text file instead."

/-- Line 155: the fixed placeholder of `extract_text_from_spreadsheet`. -/
def spreadsheetMsg : String :=
  "Spreadsheet text extraction is not yet implemented. Please export as CSV or upload a PDF file instead."

/-- Line 52: `f"Unsupported file format: {file_extension}. ..."`. -/
def unsupportedMsg (ext : String) : String :=
  "Unsupported file format: " ++ ext ++ ". Please upload a PDF, image, or text file."

/-- Whether a byte is a UTF-8 continuation byte (10xxxxxx). -/
def utf8ContOk (b : UInt8) : Bool := 0x80 ≤ b && b ≤ 0xBF

/-- Valid second byte of a three-byte UTF-8 sequence led by `b0`
(the E0/ED restrictions exclude overlong encodings and surrogates). -/
def utf8Second3Ok (b0 b1 : UInt8) : Bool :=
  if b0 = 0xE0 then 0xA0 ≤ b1 && b1 ≤ 0xBF
  else if b0 = 0xED then 0x80 ≤ b1 && b1 ≤ 0x9F
  else utf8ContOk b1

/-- Valid second byte of a four-byte UTF-8 sequence led by `b0`
(the F0/F4 restrictions exclude overlong encodings and values past
U+10FFFF). -/
def utf8Second4Ok (b0 b1 : UInt8) : Bool :=
  if b0 = 0xF0 then 0x90 ≤ b1 && b1 ≤ 0xBF
  else if b0 = 0xF4 then 0x80 ≤ b1 && b1 ≤ 0x8F
  else utf8ContOk b1

/-- Strict UTF-8 decoding, `content.decode('utf-8')` (line 130): `none`
models the `UnicodeDecodeError` Python raises on any invalid sequence. -/
def utf8Decode? : List UInt8 → Option (List Char)
  | [] => some []
  | b0 :: rest =>
    if b0 ≤ 0x7F then
      (utf8Decode? rest).map fun cs => Char.ofNat b0.toNat :: cs
    else if 0xC2 ≤ b0 && b0 ≤ 0xDF then
      match rest with
      | b1 :: rest2 =>
        if utf8ContOk b1 then
          (utf8Decode? rest2).map fun cs =>
            Char.ofNat ((b0.toNat - 0xC0) * 0x40 + (b1.toNat - 0x80)) :: cs
        else none
      | [] => none
    else if 0xE0 ≤ b0 && b0 ≤ 0xEF then
      match rest with
      | b1 :: b2 :: rest3 =>
        if utf8Second3Ok b0 b1 && utf8ContOk b2 then
          (utf8Decode? rest3).map fun cs =>
            Char.ofNat ((b0.toNat - 0xE0) * 0x1000 + (b1.toNat - 0x80) * 0x40
              + (b2.toNat - 0x80)) :: cs
        else none
      | _ => none
    else if 0xF0 ≤ b0 && b0 ≤ 0xF4 then
      match rest with
      | b1 :: b2 :: b3 :: rest4 =>
        if utf8Second4Ok b0 b1 && utf8ContOk b2 && utf8ContOk b3 then
          (utf8Decode? rest4).map fun cs =>
            Char.ofNat ((b0.toNat - 0xF0) * 0x40000 + (b1.toNat - 0x80) * 0x1000
              + (b2.toNat - 0x80) * 0x40 + (b3.toNat - 0x80)) :: cs
        else none
      | _ => none
    else none

/-- Strict decoding through a single-byte codec table: Python raises
`UnicodeDecodeError` (here `none`) as soon as one byte has no mapping. -/
def decodeWithTable (table : UInt8 → Option Char) : List UInt8 → Option (List Char)
  | [] => some []
  | b :: rest =>
    match table b, decodeWithTable table rest with
    | some c, some cs => some (c :: cs)
    | _, _ => none

/-- The latin-1 (ISO-8859-1) table: every byte maps to the code point of
the same value. -/
def latin1Table (b : UInt8) : Option Char := some (Char.ofNat b.toNat)

/-- `content.decode('latin-1')` (line 134). -/
def latin1Decode? (bs : List UInt8) : Option String :=
  (decodeWithTable latin1Table bs).map fun cs => String.mk cs

/-- The string latin-1 decoding yields: one character per byte. -/
def latin1String (bs : List UInt8) : String :=
  String.mk (bs.map fun b => Char.ofNat b.toNat)

/-- The Windows-1252 table: ASCII and 0xA0-0xFF map to themselves, the
0x80-0x9F block maps through the cp1252 assignments, and the five
unassigned bytes 0x81, 0x8D, 0x8F, 0x90, 0x9D have no mapping. -/
def cp1252Table (b : UInt8) : Option Char :=
  if b < 0x80 || 0xA0 ≤ b then some (Char.ofNat b.toNat)
  else match b.toNat with
  | 0x80 => some (Char.ofNat 0x20AC)
  | 0x82 => some (Char.ofNat 0x201A)
  | 0x83 => some (Char.ofNat 0x0192)
  | 0x84 => some (Char.ofNat 0x201E)
  | 0x85 => some (Char.ofNat 0x2026)
  | 0x86 => some (Char.ofNat 0x2020)
  | 0x87 => some (Char.ofNat 0x2021)
  | 0x88 => some (Char.ofNat 0x02C6)
  | 0x89 => some (Char.ofNat 0x2030)
  | 0x8A => some (Char.ofNat 0x0160)
  | 0x8B => some (Char.ofNat 0x2039)
  | 0x8C => some (Char.ofNat 0x0152)
  | 0x8E => some (Char.ofNat 0x017D)
  | 0x91 => some (Char.ofNat 0x2018)
  | 0x92 => some (Char.ofNat 0x2019)
  | 0x93 => some (Char.ofNat 0x201C)
  | 0x94 => some (Char.ofNat 0x201D)
  | 0x95 => some (Char.ofNat 0x2022)
  | 0x96 => some (Char.ofNat 0x2013)
  | 0x97 => some (Char.ofNat 0x2014)
  | 0x98 => some (Char.ofNat 0x02DC)
  | 0x99 => some (Char.ofNat 0x2122)
  | 0x9A => some (Char.ofNat 0x0161)
  | 0x9B => some (Char.ofNat 0x203A)
  | 0x9C => some (Char.ofNat 0x0153)
  | 0x9E => some (Char.ofNat 0x017E)
  | 0x9F => some (Char.ofNat 0x0178)
  | _ => none

/-- `content.decode('cp1252', errors='ignore')` (line 136): unmapped
bytes are dropped rather than failing. -/
def cp1252IgnoreDecode (bs : List UInt8) : String :=
  String.mk (bs.filterMap cp1252Table)

/-- The decode chain of `extract_text_from_file` (lines 128-136):
UTF-8, on `UnicodeDecodeError` latin-1, on `UnicodeDecodeError` cp1252
with undecodable bytes ignored. -/
def decodeChain (content : List UInt8) : String :=
  match (utf8Decode? content).map (fun cs => String.mk cs) with
  | some text_content => text_content
  | none =>
    match latin1Decode? content with
    | some text_content => text_content
    | none => cp1252IgnoreDecode content

/-- Line 143: the empty-file message. -/
def emptyFileMsg : String := "The uploaded file appears to be empty."

/-- `DocumentProcessor.extract_text_from_file` (lines 122-147): read the
bytes, decode through the chain, and return the stripped text, or the
empty-file message when the stripped text is falsy (lines 138-143). -/
def extract_text_from_file (f : UploadedFile) : String :=
  let text_content := decodeChain f.content
  if pyStrip text_content = "" then emptyFileMsg else pyStrip text_content

/-- What a `process_document` call touched: whether the file's byte
content was read, and which format-specific extraction path ran. -/
inductive ProcEvent where
  | readContent : ProcEvent
  | pdfPath : ProcEvent
  | imagePath : ProcEvent
  | textPath : ProcEvent
  | spreadsheetPath : ProcEvent
  deriving DecidableEq, Repr

/-- `DocumentProcessor.process_document` (lines 28-56), paired with the
trace of extraction paths invoked and content reads performed. A failed
validation returns `None` at once (lines 32-33) — before any dispatch,
without reading the content; an extension in no category returns the
unsupported-format message (line 52). The image and spreadsheet stubs
return their placeholders without reading the content. -/
def process_document (f : UploadedFile) : Option String × List ProcEvent :=
  if !_validate_file f then (none, [])
  else
    let file_extension := _get_file_extension (nameString f.name)
    if pdfFormats.contains file_extension then
      (some (extract_text_from_pdf f), [.pdfPath, .readContent])
    else if imageFormats.contains file_extension then
      (some imageMsg, [.imagePath])
    else if textFormats.contains file_extension then
      (some (extract_text_from_file f), [.textPath, .readContent])
    else if spreadsheetFormats.contains file_extension then
      (some spreadsheetMsg, [.spreadsheetPath])
    else
      (some (unsupportedMsg file_extension), [])

end DocumentProcessor

namespace Db

/- ----- src/utils/db.py ----- -/

/-- A row of the `conversations` table (lines 17-28). -/
structure ConversationRow where
  id : Nat
  session_id : String
  deriving DecidableEq, Repr

/-- A row of the `messages` table (lines 30-42); `conversation_id` is the
non-null foreign key to `conversations.id`, `created_at` the creation
timestamp the lookup orders by. -/
structure MessageRow where
  id : Nat
  conversation_id : Nat
  role : String
  content : String
  created_at : Nat
  deriving DecidableEq, Repr

/-- The database's state: the two tables. -/
structure Database where
  conversations : List ConversationRow
  messages : List MessageRow
  deriving DecidableEq, Repr

/-- No message references a missing conversation (the `ForeignKey`
integrity of line 35). -/
def orphanFree (db : Database) : Prop :=
  ∀ m ∈ db.messages, ∃ c ∈ db.conversations, c.id = m.conversation_id

/-- The query of `get_conversation_messages` (lines 163-165): filter by
`conversation_id`, order by `created_at` ascending, take `limit`. -/
def get_conversation_messages (db : Database) (conversation_id limit : Nat) :
    List MessageRow :=
  (((db.messages.filter fun m => m.conversation_id = conversation_id).mergeSort
      fun m1 m2 => decide (m1.created_at ≤ m2.created_at)).take limit)

/-- `delete_conversation` (lines 232-253): look the conversation up by id;
when found, `db.delete(conversation)` removes the row and — through the
`cascade="all, delete-orphan"` relationship of line 28 — every message
whose `conversation_id` references it, then commits and returns `True`;
when not found, return `False` with the database unchanged. -/
def delete_conversation (db : Database) (conversation_id : Nat) : Bool × Database :=
  match db.conversations.find? (fun c => c.id = conversation_id) with
  | some _ =>
    (true,
      ⟨db.conversations.filter fun c => ¬ c.id = conversation_id,
       db.messages.filter fun m => ¬ m.conversation_id = conversation_id⟩)
  | none => (false, db)

/-- The result of Python `try: body except Exception: handler finally:
cleanup`: a raising body is replaced by the handler's outcome, and an
exception raised by the cleanup replaces whatever result was pending. -/
def tryExceptFinally {α : Type} (body : Except PyErr α) (handler : PyErr → Except PyErr α)
    (cleanup : Except PyErr Unit) : Except PyErr α :=
  let pending :=
    match body with
    | .ok a => .ok a
    | .error e => handler e
  match cleanup with
  | .ok _ => pending
  | .error e => .error e

/-- `get_conversation_messages` as called (lines 159-182), with its
session acquisition and query outcomes made explicit. The local `db` is
bound only if `get_db_session()` (line 162) returns; the body then either
raises (`acquire` failed, or `queryFails` models a `SQLAlchemyError` from
the query) or returns the message list; `except Exception` returns `[]`
(lines 177-179); and the `finally` clause (lines 180-182) reads `db`,
which raises `UnboundLocalError` when the session acquisition itself
raised, since `db` was never assigned. -/
def get_conversation_messages_run (acquire : Except String Database)
    (queryFails : Bool) (conversation_id limit : Nat) :
    Except PyErr (List MessageRow) :=
  let dbVar : Option Database :=
    match acquire with
    | .ok d => some d
    | .error _ => none
  tryExceptFinally
    (match acquire with
     | .error e => .error (.exc e)
     | .ok db =>
       if queryFails then .error (.exc "SQLAlchemyError")
       else .ok (get_conversation_messages db conversation_id limit))
    (fun _ => .ok [])
    (match dbVar with
     | none => .error .unboundLocal
     | some _ => .ok ())

end Db

/- ===== Theorems about the Model Client (src/utils/llm.py) ===== -/

namespace GroqLLMClient

/-- When every `create` call rate-limits, the retry loop started at
iteration `attempt` with `fuel` iterations left sleeps
`retry_delay * 2 ^ k` for `k = attempt, ..., attempt + fuel - 1`, issues
one call per iteration, and returns the high-demand message. -/
lemma rlLoop_rateLimited (c : Client) (p : Nat → ApiOutcome) (s : Nat)
    (hp : ∀ i, p i = ApiOutcome.rateLimit) :
    ∀ fuel attempt, attempt + fuel = c.max_retries →
      rlLoop c p s attempt fuel =
        ⟨highDemandMsg, (List.range' attempt fuel).map fun k => c.retry_delay * 2 ^ k, fuel⟩ := by
  intro fuel
  induction fuel with
  | zero => intro attempt _; rfl
  | succ f ih =>
    intro attempt h
    simp only [rlLoop, hp]
    by_cases ha : attempt = c.max_retries - 1
    · have hf : f = 0 := by omega
      subst hf
      simp [ha, List.range']
    · rw [if_neg ha, ih (attempt + 1) (by omega)]
      simp [List.range']

/-- When the calls before retry iteration `j` rate-limit and the call at
iteration `j` succeeds, the retry loop returns that response validated. -/
lemma rlLoop_success (c : Client) (p : Nat → ApiOutcome) (s : Nat) (r : Choices) (j : Nat)
    (hj : j < c.max_retries)
    (hrl : ∀ i, i < j → p (s + i) = ApiOutcome.rateLimit)
    (hs : p (s + j) = ApiOutcome.success r) :
    ∀ fuel attempt, attempt + fuel = c.max_retries → attempt ≤ j →
      (rlLoop c p s attempt fuel).result = _validate_response r := by
  intro fuel
  induction fuel with
  | zero => intro attempt h hle; omega
  | succ f ih =>
    intro attempt h hle
    by_cases he : attempt = j
    · subst he
      simp only [rlLoop, hs]
    · have hlt : attempt < j := by omega
      simp only [rlLoop, hrl attempt hlt]
      rw [if_neg (show ¬ attempt = c.max_retries - 1 by omega)]
      exact ih (attempt + 1) (by omega) (by omega)

/-- C2: when the provider rate-limits the first call and every retry,
`chat_completion` issues exactly `max_retries` further calls, sleeping
`retry_delay * 2 ^ k` before retry `k` (`k = 0 .. max_retries - 1`, so
the delays double), and returns — does not raise — the high-demand
placeholder; and when the calls through retry `j` rate-limit but retry
`j + 1`-th call (iteration `j`) succeeds, the validated response of that
retry is returned instead. -/
theorem rate_limit_retry_policy (c : Client) (p : Nat → ApiOutcome) :
    ((∀ i, p i = ApiOutcome.rateLimit) →
      chat_completion c p =
        ⟨Except.ok highDemandMsg,
         (List.range c.max_retries).map fun k => c.retry_delay * 2 ^ k,
         1 + c.max_retries⟩)
    ∧ (∀ j r, j < c.max_retries → (∀ i, i ≤ j → p i = ApiOutcome.rateLimit) →
        p (j + 1) = ApiOutcome.success r →
        (chat_completion c p).result = Except.ok (_validate_response r)) := by
  constructor
  · intro hp
    have h := rlLoop_rateLimited c p 1 hp c.max_retries 0 (by omega)
    simp only [chat_completion, hp 0, _handle_rate_limit]
    rw [h, List.range_eq_range']
  · intro j r hj hrl hs
    have h := rlLoop_success c p 1 r j hj
      (fun i hi => hrl (1 + i) (by omega))
      (by rw [show 1 + j = j + 1 by omega]; exact hs)
      c.max_retries 0 (by omega) (Nat.zero_le j)
    simp only [chat_completion, hrl 0 (Nat.zero_le j), _handle_rate_limit] at h ⊢
    rw [h]

/-- C2 witness: with the default client (3 retries, base delay 1), an
always-rate-limited provider gives delays 1, 2, 4, four calls in total
and the placeholder; a provider whose first retry succeeds gives that
retry's validated response. -/
theorem rate_limit_retry_policy_witness :
    chat_completion defaultClient (fun _ => ApiOutcome.rateLimit) =
      ⟨Except.ok highDemandMsg, [1, 2, 4], 4⟩
    ∧ (chat_completion defaultClient
        (fun k => if k = 0 then ApiOutcome.rateLimit
          else ApiOutcome.success [some "hello"])).result = Except.ok "hello" := by
  constructor
  · have h := (rate_limit_retry_policy defaultClient (fun _ => ApiOutcome.rateLimit)).1
      (fun _ => rfl)
    rw [h]
    rfl
  · have h := (rate_limit_retry_policy defaultClient
      (fun k => if k = 0 then ApiOutcome.rateLimit
        else ApiOutcome.success [some "hello"])).2 0 [some "hello"]
      (by decide)
      (by intro i hi; have : i = 0 := Nat.le_zero.mp hi; subst this; rfl)
      rfl
    rw [h]
    rfl

/-- C1: `_handle_api_error` classifies a present status code as the spec
says — 401, 403, 429, two ≥ 500 codes, and a generic code embed the
provider's description — and each such classification is returned by
`chat_completion` as a string; but an `APIError` carrying no status code
reaches `error_code >= 500` as `None >= 500`, and `chat_completion`
raises `TypeError` instead of returning a string. -/
theorem api_error_classification :
    chat_completion defaultClient (fun _ => ApiOutcome.apiError (some 401) "desc") =
      ⟨Except.ok authIssueMsg, [], 1⟩
    ∧ chat_completion defaultClient (fun _ => ApiOutcome.apiError (some 403) "desc") =
      ⟨Except.ok permissionMsg, [], 1⟩
    ∧ chat_completion defaultClient (fun _ => ApiOutcome.apiError (some 429) "desc") =
      ⟨Except.ok highDemandMsg, [], 1⟩
    ∧ chat_completion defaultClient (fun _ => ApiOutcome.apiError (some 500) "desc") =
      ⟨Except.ok serverErrorMsg, [], 1⟩
    ∧ chat_completion defaultClient (fun _ => ApiOutcome.apiError (some 503) "desc") =
      ⟨Except.ok serverErrorMsg, [], 1⟩
    ∧ chat_completion defaultClient (fun _ => ApiOutcome.apiError (some 404) "desc") =
      ⟨Except.ok (apologyMsg "desc"), [], 1⟩
    ∧ chat_completion defaultClient (fun _ => ApiOutcome.apiError none "desc") =
      ⟨Except.error PyErr.typeError, [], 1⟩ :=
  ⟨rfl, rfl, rfl, rfl, rfl, rfl, rfl⟩

/-- A fully chunked upstream sequence makes the generator yield exactly
the truthy chunk contents and end normally. -/
lemma stream_chunks (c : Client) (p : Nat → ApiOutcome) :
    ∀ es, chunkOnly es →
      chat_completion_stream c p es = ⟨yieldsOf es, Except.ok ()⟩ := by
  intro es
  induction es with
  | nil => intro _; rfl
  | cons e rest ih =>
    intro h
    obtain ⟨co, rfl⟩ := h e (List.mem_cons_self e rest)
    have hrest := ih fun x hx => h x (List.mem_cons_of_mem _ hx)
    cases co with
    | none => simp [chat_completion_stream, hrest, yieldsOf, List.filterMap_cons]
    | some s =>
      by_cases hse : s = ""
      · subst hse
        simp [chat_completion_stream, hrest, yieldsOf, List.filterMap_cons]
      · simp [chat_completion_stream, hrest, yieldsOf, List.filterMap_cons, hse]

/-- Skipping chunks with empty or absent content loses nothing: the
yielded fragments concatenate to the full upstream content. -/
lemma concat_yieldsOf :
    ∀ es, chunkOnly es → concatAll (yieldsOf es) = concatAll (contentOf es) := by
  intro es
  induction es with
  | nil => intro _; rfl
  | cons e rest ih =>
    intro h
    obtain ⟨co, rfl⟩ := h e (List.mem_cons_self e rest)
    have hrest := ih fun x hx => h x (List.mem_cons_of_mem _ hx)
    cases co with
    | none =>
      have h1 : yieldsOf (StreamEvent.chunk none :: rest) = yieldsOf rest := rfl
      have h2 : concatAll (contentOf (StreamEvent.chunk none :: rest)) =
          "" ++ concatAll (contentOf rest) := rfl
      rw [h1, h2, hrest]
      rfl
    | some s =>
      by_cases hse : s = ""
      · subst hse
        have h1 : yieldsOf (StreamEvent.chunk (some "") :: rest) = yieldsOf rest := rfl
        have h2 : concatAll (contentOf (StreamEvent.chunk (some "") :: rest)) =
            "" ++ concatAll (contentOf rest) := rfl
        rw [h1, h2, hrest]
        rfl
      · have h1 : yieldsOf (StreamEvent.chunk (some s) :: rest) = s :: yieldsOf rest := by
          simp [yieldsOf, List.filterMap_cons, hse]
        have h2 : concatAll (contentOf (StreamEvent.chunk (some s) :: rest)) =
            s ++ concatAll (contentOf rest) := rfl
        rw [h1, h2]
        show s ++ concatAll (yieldsOf rest) = s ++ concatAll (contentOf rest)
        rw [hrest]

/-- C6: on a finite upstream chunk sequence the streaming call yields one
fragment per chunk with non-empty content (empty or absent content is
skipped), terminates normally when the sequence ends, and the
concatenation of the yielded fragments equals the concatenation of all
the chunk contents. -/
theorem stream_fragment_concat (c : Client) (p : Nat → ApiOutcome) (es : List StreamEvent)
    (h : chunkOnly es) :
    chat_completion_stream c p es = ⟨yieldsOf es, Except.ok ()⟩
    ∧ concatAll (yieldsOf es) = concatAll (contentOf es) :=
  ⟨stream_chunks c p es h, concat_yieldsOf es h⟩

/-- C6 witness: a concrete four-chunk stream (one `None` content, one
empty content) yields two fragments whose concatenation is the full
content "Hello". -/
theorem stream_fragment_concat_witness :
    chat_completion_stream defaultClient (fun _ => ApiOutcome.rateLimit)
      [StreamEvent.chunk (some "Hel"), StreamEvent.chunk none,
       StreamEvent.chunk (some ""), StreamEvent.chunk (some "lo")] =
      ⟨["Hel", "lo"], Except.ok ()⟩
    ∧ concatAll ["Hel", "lo"] =
      concatAll (contentOf
        [StreamEvent.chunk (some "Hel"), StreamEvent.chunk none,
         StreamEvent.chunk (some ""), StreamEvent.chunk (some "lo")]) := by
  have h := stream_fragment_concat defaultClient (fun _ => ApiOutcome.rateLimit)
    [StreamEvent.chunk (some "Hel"), StreamEvent.chunk none,
     StreamEvent.chunk (some ""), StreamEvent.chunk (some "lo")]
    (by
      intro e he
      simp only [List.mem_cons, List.not_mem_nil, or_false] at he
      rcases he with h1 | h1 | h1 | h1 <;> exact ⟨_, h1⟩)
  exact ⟨by rw [h.1]; rfl, h.2⟩

/-- Consuming a stream that begins with chunks only: the generator yields
those chunks' truthy contents first and then behaves as it does on the
remaining events. -/
lemma stream_append (c : Client) (p : Nat → ApiOutcome) :
    ∀ (pre rest : List StreamEvent), chunkOnly pre →
      chat_completion_stream c p (pre ++ rest) =
        ⟨yieldsOf pre ++ (chat_completion_stream c p rest).fragments,
         (chat_completion_stream c p rest).ending⟩ := by
  intro pre
  induction pre with
  | nil => intro rest _; rfl
  | cons e pre' ih =>
    intro rest h
    obtain ⟨co, rfl⟩ := h e (List.mem_cons_self e pre')
    have hih := ih rest fun x hx => h x (List.mem_cons_of_mem _ hx)
    cases co with
    | none =>
      calc chat_completion_stream c p ((StreamEvent.chunk none :: pre') ++ rest)
          = chat_completion_stream c p (pre' ++ rest) := rfl
        _ = ⟨yieldsOf pre' ++ (chat_completion_stream c p rest).fragments,
             (chat_completion_stream c p rest).ending⟩ := hih
        _ = ⟨yieldsOf (StreamEvent.chunk none :: pre')
              ++ (chat_completion_stream c p rest).fragments,
             (chat_completion_stream c p rest).ending⟩ := rfl
    | some s =>
      by_cases hse : s = ""
      · subst hse
        calc chat_completion_stream c p ((StreamEvent.chunk (some "") :: pre') ++ rest)
            = chat_completion_stream c p (pre' ++ rest) := rfl
          _ = ⟨yieldsOf pre' ++ (chat_completion_stream c p rest).fragments,
               (chat_completion_stream c p rest).ending⟩ := hih
          _ = ⟨yieldsOf (StreamEvent.chunk (some "") :: pre')
                ++ (chat_completion_stream c p rest).fragments,
               (chat_completion_stream c p rest).ending⟩ := rfl
      · have hs1 : chat_completion_stream c p ((StreamEvent.chunk (some s) :: pre') ++ rest) =
            ⟨s :: (chat_completion_stream c p (pre' ++ rest)).fragments,
             (chat_completion_stream c p (pre' ++ rest)).ending⟩ := by
          simp only [List.cons_append, chat_completion_stream]
          rw [if_neg hse]
          rfl
        have hy : yieldsOf (StreamEvent.chunk (some s) :: pre') = s :: yieldsOf pre' := by
          simp [yieldsOf, List.filterMap_cons, hse]
        rw [hs1, hih, hy]
        rfl

/-- C5 (amended): a provider rate-limit signal during streaming makes the
generator yield exactly one further fragment — the result of the blocking
rate-limit handler, which is the high-demand placeholder whenever every
blocking retry also rate-limits — and then terminate normally; the
remaining upstream events are never consumed, i.e. the stream itself is
not retried. -/
theorem stream_rate_limit_single_fragment (c : Client) (p : Nat → ApiOutcome)
    (pre post : List StreamEvent) (h : chunkOnly pre) :
    chat_completion_stream c p (pre ++ StreamEvent.rateLimitExc :: post) =
      ⟨yieldsOf pre ++ [(_handle_rate_limit c p 0).result], Except.ok ()⟩
    ∧ ((∀ i, p i = ApiOutcome.rateLimit) →
        (_handle_rate_limit c p 0).result = highDemandMsg) := by
  constructor
  · rw [stream_append c p pre (StreamEvent.rateLimitExc :: post) h]
    rfl
  · intro hp
    have h2 := rlLoop_rateLimited c p 0 hp c.max_retries 0 (by omega)
    unfold _handle_rate_limit
    rw [h2]

/-- C5 witness: one chunk, then a rate-limit with every blocking retry
also rate-limited — one further fragment holding the placeholder, then
termination, the trailing chunk never consumed. -/
theorem stream_rate_limit_single_fragment_witness :
    chat_completion_stream defaultClient (fun _ => ApiOutcome.rateLimit)
      [StreamEvent.chunk (some "x"), StreamEvent.rateLimitExc,
       StreamEvent.chunk (some "ignored")] =
      ⟨["x", highDemandMsg], Except.ok ()⟩ := by
  have h := stream_rate_limit_single_fragment defaultClient (fun _ => ApiOutcome.rateLimit)
    [StreamEvent.chunk (some "x")] [StreamEvent.chunk (some "ignored")]
    (by
      intro e he
      simp only [List.mem_cons, List.not_mem_nil, or_false] at he
      exact ⟨_, he⟩)
  rw [show [StreamEvent.chunk (some "x"), StreamEvent.rateLimitExc,
      StreamEvent.chunk (some "ignored")] =
      [StreamEvent.chunk (some "x")] ++ StreamEvent.rateLimitExc ::
        [StreamEvent.chunk (some "ignored")] from rfl, h.1]
  rfl

/-- C5 counterexample: the claim says the one further fragment contains
the high-demand placeholder, but when the handler's first blocking retry
succeeds the fragment is that retry's validated response — a string
shorter than (hence not containing) the placeholder. -/
theorem stream_rate_limit_fragment_not_placeholder :
    chat_completion_stream defaultClient
      (fun _ => ApiOutcome.success [some "recovered"]) [StreamEvent.rateLimitExc] =
      ⟨["recovered"], Except.ok ()⟩
    ∧ "recovered" ≠ highDemandMsg
    ∧ "recovered".length < highDemandMsg.length :=
  ⟨rfl, by decide, by decide⟩

end GroqLLMClient

/- ===== Theorems about the Document Extractor (src/utils/document_processor.py) ===== -/

namespace DocumentProcessor

/-- The latin-1 table maps every byte, so strict latin-1 decoding
succeeds on every byte sequence. -/
lemma decodeWithTable_latin1 (bs : List UInt8) :
    decodeWithTable latin1Table bs = some (bs.map fun b => Char.ofNat b.toNat) := by
  induction bs with
  | nil => rfl
  | cons b rest ih => simp [decodeWithTable, latin1Table, ih]

/-- `content.decode('latin-1')` never raises: it yields one character per
byte. -/
lemma latin1Decode_total (bs : List UInt8) :
    latin1Decode? bs = some (latin1String bs) := by
  simp [latin1Decode?, decodeWithTable_latin1, latin1String]

/-- The unsupported-format message is 68 characters plus the embedded
extension. -/
lemma unsupportedMsg_length (ext : String) :
    (unsupportedMsg ext).length = 68 + ext.length := by
  show ("Unsupported file format: " ++ ext ++
      ". Please upload a PDF, image, or text file.").length = 68 + ext.length
  rw [String.length_append, String.length_append]
  show 25 + ext.length + 43 = 68 + ext.length
  omega

/-- C10: the latin-1 decode step succeeds for every byte sequence, so the
third branch of the decode chain (the permissive cp1252 decode that drops
undecodable bytes) is unreachable: the decoded text always comes from
either the UTF-8 or the latin-1 decode. -/
theorem latin1_never_fails (bs : List UInt8) :
    latin1Decode? bs = some (latin1String bs)
    ∧ decodeChain bs = (match utf8Decode? bs with
        | some cs => String.mk cs
        | none => latin1String bs) := by
  refine ⟨latin1Decode_total bs, ?_⟩
  unfold decodeChain
  cases h : utf8Decode? bs with
  | some cs => simp [h]
  | none => simp [h, latin1Decode_total bs]

/-- C7: plain-text extraction decodes UTF-8 first, falls back to latin-1
when UTF-8 fails (without raising), strips the result, returns the fixed
empty-file message when the stripped text is empty, and that message is
distinct from the other placeholders. -/
theorem text_decode_chain (f : UploadedFile) :
    (∀ cs, utf8Decode? f.content = some cs →
      extract_text_from_file f =
        (if pyStrip (String.mk cs) = "" then emptyFileMsg else pyStrip (String.mk cs)))
    ∧ (utf8Decode? f.content = none →
      extract_text_from_file f =
        (if pyStrip (latin1String f.content) = "" then emptyFileMsg
         else pyStrip (latin1String f.content)))
    ∧ emptyFileMsg ≠ noTextMsg ∧ emptyFileMsg ≠ imageMsg ∧ emptyFileMsg ≠ spreadsheetMsg
    ∧ (∀ ext, emptyFileMsg ≠ unsupportedMsg ext) := by
  refine ⟨?_, ?_, by decide, by decide, by decide, ?_⟩
  · intro cs h
    unfold extract_text_from_file decodeChain
    simp [h]
  · intro h
    unfold extract_text_from_file decodeChain
    simp [h, latin1Decode_total f.content]
  · intro ext heq
    have hl := congrArg String.length heq
    rw [unsupportedMsg_length] at hl
    have h38 : emptyFileMsg.length = 38 := rfl
    rw [h38] at hl
    omega

/-- C7 witness: the bytes FF 61 are invalid UTF-8 but decode through the
latin-1 fallback without raising. -/
theorem text_decode_chain_witness :
    extract_text_from_file ⟨2, some "n.txt", [0xFF, 0x61], Except.ok [],
      fun _ => Except.ok [], 0⟩ = "ÿa"
    ∧ utf8Decode? [0xFF, 0x61] = none := by
  constructor
  · have h := (text_decode_chain ⟨2, some "n.txt", [0xFF, 0x61], Except.ok [],
      fun _ => Except.ok [], 0⟩).2.1 (by decide)
    rw [h]
    rfl
  · decide

/-- C3: when pdfplumber raises or collects no page text, the result is
PyPDF2's pages — read from position 0 after the `seek(0)` — each stripped
and joined with a blank line; when PyPDF2 also collects nothing the fixed
no-text message is returned, a string distinct from the unsupported-format
and empty-file messages. -/
theorem pdf_fallback (f : UploadedFile)
    (hPrimary : (∃ e, f.plumberPages = Except.error e) ∨
      (∃ ps, f.plumberPages = Except.ok ps ∧ stripTruthyPages ps = [])) :
    (∀ ps, f.pypdfPages 0 = Except.ok ps → stripTruthyPages ps ≠ [] →
      extract_text_from_pdf f = String.intercalate "\n\n" (stripTruthyPages ps))
    ∧ (∀ ps, f.pypdfPages 0 = Except.ok ps → stripTruthyPages ps = [] →
      extract_text_from_pdf f = noTextMsg)
    ∧ noTextMsg ≠ emptyFileMsg
    ∧ (∀ ext, noTextMsg ≠ unsupportedMsg ext) := by
  have hfall : extract_text_from_pdf f =
      (match f.pypdfPages 0 with
       | Except.ok pages =>
         if (stripTruthyPages pages).isEmpty then noTextMsg
         else String.intercalate "\n\n" (stripTruthyPages pages)
       | Except.error desc => pdfErrorMsg desc) := by
    rcases hPrimary with ⟨e, he⟩ | ⟨ps, hps, hempty⟩
    · simp only [extract_text_from_pdf, he, UploadedFile.seek]
    · simp only [extract_text_from_pdf, hps, hempty, List.isEmpty_nil, ite_true,
        UploadedFile.seek]
  refine ⟨?_, ?_, by decide, ?_⟩
  · intro ps hps hne
    rw [hfall, hps]
    show (if (stripTruthyPages ps).isEmpty then noTextMsg
      else String.intercalate "\n\n" (stripTruthyPages ps)) =
      String.intercalate "\n\n" (stripTruthyPages ps)
    rw [if_neg (fun hh => hne (List.isEmpty_iff.mp hh))]
  · intro ps hps hempty
    rw [hfall, hps]
    show (if (stripTruthyPages ps).isEmpty then noTextMsg
      else String.intercalate "\n\n" (stripTruthyPages ps)) = noTextMsg
    rw [hempty]
    rfl
  · intro ext heq
    have hl := congrArg String.length heq
    rw [unsupportedMsg_length] at hl
    have h54 : noTextMsg.length = 54 := rfl
    rw [h54] at hl
    omega

/-- C3 witness: pdfplumber raising falls back to PyPDF2's stripped,
blank-line-joined pages; both methods collecting nothing gives the fixed
no-text message. -/
theorem pdf_fallback_witness :
    extract_text_from_pdf ⟨10, some "a.pdf", [], Except.error "broken",
      fun _ => Except.ok [some " x ", none, some "y"], 7⟩ = "x\n\ny"
    ∧ extract_text_from_pdf ⟨10, some "b.pdf", [], Except.ok [none, some ""],
      fun _ => Except.ok [none], 0⟩ = noTextMsg := by
  constructor
  · have h := (pdf_fallback ⟨10, some "a.pdf", [], Except.error "broken",
      fun _ => Except.ok [some " x ", none, some "y"], 7⟩
      (Or.inl ⟨"broken", rfl⟩)).1 [some " x ", none, some "y"] rfl (by decide)
    rw [h]
    rfl
  · exact (pdf_fallback ⟨10, some "b.pdf", [], Except.ok [none, some ""],
      fun _ => Except.ok [none], 0⟩
      (Or.inr ⟨[none, some ""], rfl, rfl⟩)).2.1 [none] rfl rfl

/-- C4 counterexample: on a denylisted extension `process_document`
returns Python `None` — no string at all — not a placeholder string
reporting the file as unable to be processed. -/
theorem denylisted_returns_none :
    process_document ⟨10, some "malware.exe", [], Except.ok [], fun _ => Except.ok [], 0⟩ =
      (none, [])
    ∧ (process_document ⟨10, some "malware.exe", [], Except.ok [],
        fun _ => Except.ok [], 0⟩).1.isSome = false := by
  constructor
  · decide
  · decide

/-- C4 (amended): a file failing validation — oversize, falsy or over-long
name, or denylisted extension — makes `process_document` return `None`
(the not-processed signal the front end renders as an unable-to-process
message), with no format-specific extraction path invoked and no content
read, and without raising. -/
theorem validation_failure_no_extraction (f : UploadedFile)
    (h : f.size > max_file_size ∨ nameFalsy f.name = true
      ∨ (nameString f.name).length > 255
      ∨ suspicious_extensions.contains
          (pyLower (_get_file_extension (nameString f.name))) = true) :
    process_document f = (none, []) := by
  have hv : _validate_file f = false := by
    unfold _validate_file
    by_cases h1 : f.size > max_file_size
    · rw [if_pos h1]
    · rw [if_neg h1]
      by_cases h2 : (nameFalsy f.name || decide ((nameString f.name).length > 255)) = true
      · rw [if_pos h2]
      · rw [if_neg h2]
        have h3 : suspicious_extensions.contains
            (pyLower (_get_file_extension (nameString f.name))) = true := by
          rcases h with h | h | h | h
          · exact absurd h h1
          · exfalso; apply h2; rw [h]; rfl
          · exfalso; apply h2; simp [h]
          · exact h
        rw [if_pos h3]
  unfold process_document
  rw [hv]
  rfl

/-- C4 witness: an oversize file is rejected with the `None` signal and
an empty trace. -/
theorem validation_failure_no_extraction_witness :
    process_document ⟨max_file_size + 1, some "big.pdf", [], Except.ok [some "text"],
      fun _ => Except.ok [], 0⟩ = (none, []) :=
  validation_failure_no_extraction _ (Or.inl (Nat.lt_succ_self max_file_size))

end DocumentProcessor

/- ===== Theorems about the Conversation Store (src/utils/db.py) ===== -/

namespace Db

/-- C8: deleting a stored conversation succeeds, removes every one of its
messages (cascade), preserves foreign-key integrity — no message is left
referencing a missing conversation — and a subsequent message lookup for
that conversation identifier returns the empty sequence. -/
theorem delete_conversation_cascade (db : Database) (conversation_id limit : Nat)
    (h : ∃ c ∈ db.conversations, c.id = conversation_id) :
    (delete_conversation db conversation_id).1 = true
    ∧ (∀ m ∈ (delete_conversation db conversation_id).2.messages,
        m.conversation_id ≠ conversation_id)
    ∧ (orphanFree db → orphanFree (delete_conversation db conversation_id).2)
    ∧ get_conversation_messages (delete_conversation db conversation_id).2
        conversation_id limit = [] := by
  obtain ⟨c0, hc0, hcid⟩ := h
  cases hf : db.conversations.find? (fun c => c.id = conversation_id) with
  | none =>
    exfalso
    have := List.find?_eq_none.mp hf c0 hc0
    simp [hcid] at this
  | some cfound =>
    have hdel : delete_conversation db conversation_id =
        (true,
          ⟨db.conversations.filter fun c => ¬ c.id = conversation_id,
           db.messages.filter fun m => ¬ m.conversation_id = conversation_id⟩) := by
      unfold delete_conversation
      rw [hf]
    refine ⟨by rw [hdel], ?_, ?_, ?_⟩
    · intro m hm
      rw [hdel] at hm
      simp only [List.mem_filter, decide_eq_true_eq] at hm
      exact hm.2
    · intro ho m hm
      rw [hdel] at hm ⊢
      simp only [List.mem_filter, decide_eq_true_eq] at hm
      obtain ⟨c2, hc2, hcid2⟩ := ho m hm.1
      refine ⟨c2, ?_, hcid2⟩
      simp only [List.mem_filter, decide_eq_true_eq]
      exact ⟨hc2, by rw [hcid2]; exact hm.2⟩
    · rw [hdel]
      unfold get_conversation_messages
      have hnil : ((db.messages.filter fun m => ¬ m.conversation_id = conversation_id).filter
          fun m => m.conversation_id = conversation_id) = [] := by
        apply List.filter_eq_nil_iff.mpr
        intro m hm
        simp only [List.mem_filter, decide_eq_true_eq] at hm
        simp [hm.2]
      rw [hnil]
      simp [List.mergeSort_nil]

/-- C8 witness: deleting conversation 1 of a concrete two-conversation,
two-message database succeeds and empties its message lookup. -/
theorem delete_conversation_cascade_witness :
    (delete_conversation
      ⟨[⟨1, "s"⟩, ⟨2, "t"⟩],
       [⟨1, 1, "user", "hi", 0⟩, ⟨2, 2, "user", "yo", 1⟩]⟩ 1).1 = true
    ∧ get_conversation_messages
      (delete_conversation
        ⟨[⟨1, "s"⟩, ⟨2, "t"⟩],
         [⟨1, 1, "user", "hi", 0⟩, ⟨2, 2, "user", "yo", 1⟩]⟩ 1).2 1 50 = [] := by
  have h := delete_conversation_cascade
    ⟨[⟨1, "s"⟩, ⟨2, "t"⟩], [⟨1, 1, "user", "hi", 0⟩, ⟨2, 2, "user", "yo", 1⟩]⟩ 1 50
    ⟨⟨1, "s"⟩, List.mem_cons_self _ _, rfl⟩
  exact ⟨h.1, h.2.2.2⟩

/-- C9: when acquiring the database session itself raises, the function
raises `UnboundLocalError` (the `finally` clause reads the never-bound
`db`) instead of returning the empty list; when the session is acquired,
a failing query returns `[]` and a successful query returns the message
list — the return-empty-on-error guarantee holds exactly then. -/
theorem unbound_session_raises :
    (∀ e queryFails conversation_id limit,
      get_conversation_messages_run (Except.error e) queryFails conversation_id limit =
        Except.error PyErr.unboundLocal)
    ∧ (∀ db conversation_id limit,
      get_conversation_messages_run (Except.ok db) true conversation_id limit =
        Except.ok [])
    ∧ (∀ db conversation_id limit,
      get_conversation_messages_run (Except.ok db) false conversation_id limit =
        Except.ok (get_conversation_messages db conversation_id limit))
    ∧ Except.error PyErr.unboundLocal ≠ (Except.ok [] : Except PyErr (List MessageRow)) :=
  ⟨fun _ _ _ _ => rfl, fun _ _ _ => rfl, fun _ _ _ => rfl,
   fun hcon => Except.noConfusion hcon⟩

end Db

end SmartAgent
